import Mathlib

/-!
Verification of the tic-tac-toe repository (three Python variants:
`functional.py`, `oop.py`, `oop_npc.py`) against its specification.

The embedding models Python semantics explicitly:
* Python ints are `Int`; Python floor division `//` and `%` are `Int.fdiv`
  and `Int.fmod`.
* Python list indexing `l[i]` (including negative indices, which count from
  the end) is `pyGetD` / `pySet`.  Out-of-range access raises in Python; the
  embedding returns a default / leaves the list unchanged, and every theorem
  below only exercises in-range accesses.
* The `Player` enum of `oop.py` has members `EMPTY`, `PRIMARY`, `SECONDARY`;
  the enum of `oop_npc.py` is identical up to the names of its non-empty
  members (`PLAYER`, `COMPUTER`), so one Lean type serves both variants.
* `functional.py` represents cells as `Optional[bool]` (`None` empty,
  `True` = X, `False` = O), embedded as `Option Bool`.
-/

namespace TicTacToe

/-- The `Player` enum of `oop.py` (and, up to member names, `oop_npc.py`). -/
inductive Player where
  | EMPTY
  | PRIMARY
  | SECONDARY
deriving DecidableEq, Repr

/-- A board grid: a Python list of lists of enum members. -/
abbrev Grid := List (List Player)

/-- Python list read `l[i]` with a default instead of `IndexError`:
negative indices count from the end of the list. -/
def pyGetD (l : List α) (i : Int) (d : α) : α :=
  if i < 0 then l.getD ((l.length : Int) + i).toNat d else l.getD i.toNat d

/-- Python list write `l[i] = a` (negative indices count from the end);
out of range is a no-op here where Python raises. -/
def pySet (l : List α) (i : Int) (a : α) : List α :=
  if i < 0 then l.set ((l.length : Int) + i).toNat a else l.set i.toNat a

/-- Read the grid cell `grid[row][col]`, Python indexing semantics. -/
def cellAt (g : Grid) (row col : Int) : Player :=
  pyGetD (pyGetD g row []) col Player.EMPTY

/-- `linear_position_to_coords` of `functional.py` (identical to
`Board.get_coords` of `oop.py` and of `oop_npc.py`, where `_SIZE = 3`):
subtract 1, `row = position // 3`, `col = position`, and take `col % 3`
only when `col > 2`. -/
def linear_position_to_coords (position : Int) : Int × Int :=
  let position := position - 1
  let row := position.fdiv 3
  let col := position
  let col := if col > 2 then col.fmod 3 else col
  (row, col)

/-- `Board.get_coords` of `oop.py` / `oop_npc.py` computes exactly the same
function as `linear_position_to_coords`. -/
def get_coords (position : Int) : Int × Int :=
  linear_position_to_coords position

/-- `Board.add` of `oop.py` / `oop_npc.py`, restricted to its effect on the
grid: `row, col = get_coords(position); grid[row][col] = player`. -/
def add (g : Grid) (position : Int) (player : Player) : Grid :=
  let rc := get_coords position
  pySet g rc.1 (pySet (pyGetD g rc.1 []) rc.2 player)

/-- `Board.is_taken` of `oop.py` / `oop_npc.py`:
`grid[row][col] is not Player.EMPTY` at `get_coords(position)`. -/
def is_taken (g : Grid) (position : Int) : Bool :=
  let rc := get_coords position
  cellAt g rc.1 rc.2 != Player.EMPTY

/-- Well-formedness of a grid: exactly 3 rows of exactly 3 cells, as built
by `Board.__init__`. -/
def WF (g : Grid) : Bool :=
  g.length == 3 && g.all (fun row => row.length == 3)

/-- The freshly constructed grid of `Board.__init__`: all cells `EMPTY`. -/
def fresh_grid : Grid :=
  List.replicate 3 (List.replicate 3 Player.EMPTY)

theorem wf_destruct (g : Grid) (h : WF g = true) :
    ∃ c00 c01 c02 c10 c11 c12 c20 c21 c22,
      g = [[c00, c01, c02], [c10, c11, c12], [c20, c21, c22]] := by
  simp only [WF, Bool.and_eq_true, beq_iff_eq, List.all_eq_true] at h
  obtain ⟨hlen, hrows⟩ := h
  obtain ⟨r0, r1, r2, rfl⟩ := List.length_eq_three.mp hlen
  obtain ⟨a, b, c, rfl⟩ := List.length_eq_three.mp (hrows r0 (by simp))
  obtain ⟨d, e, f, rfl⟩ := List.length_eq_three.mp (hrows r1 (by simp))
  obtain ⟨x, y, z, rfl⟩ := List.length_eq_three.mp (hrows r2 (by simp))
  exact ⟨a, b, c, d, e, f, x, y, z, rfl⟩

/-! ## Win detection, `oop.py` (`Board._check_rows` / `_check_cols` /
`_check_diags` / `is_winner`).  The row loop sets a flag, breaks on the
first mismatching cell and returns on the first fully matching row, which
is exactly `any`/`all`; `is_winner` raises `WinnerWinnerChickenDinner`
precisely when the disjunction of the three checks is true, embedded here
as the Boolean value of that disjunction. -/

def check_rows (g : Grid) (p : Player) : Bool :=
  g.any (fun row => row.all (fun cell => cell == p))

def check_cols (g : Grid) (p : Player) : Bool :=
  (List.range 3).any (fun col =>
    (List.range 3).all (fun row => cellAt g row col == p))

/-- `board[0][0] == board[2][2] == player` is a Python chained comparison:
`board[0][0] == board[2][2] and board[2][2] == player`. -/
def check_diags (g : Grid) (p : Player) : Bool :=
  if !(cellAt g 1 1 == p) then false
  else if (cellAt g 0 0 == cellAt g 2 2 && cellAt g 2 2 == p) ||
          (cellAt g 0 2 == cellAt g 2 0 && cellAt g 2 0 == p) then true
  else false

def is_winner (g : Grid) (p : Player) : Bool :=
  check_rows g p || check_cols g p || check_diags g p

namespace Npc

/-- `oop_npc.py` `Board._check_rows`: `[player] * Board._SIZE in self.grid`. -/
def check_rows (g : Grid) (p : Player) : Bool :=
  g.contains (List.replicate 3 p)

/-- `oop_npc.py` `Board._check_cols` is the same loop as in `oop.py`. -/
def check_cols (g : Grid) (p : Player) : Bool :=
  TicTacToe.check_cols g p

/-- `oop_npc.py` `Board._check_diags`: computes
`center_point = Board._SIZE // 2` and `corner = Board._SIZE - 1` and then
performs the same pre-filtered chained comparisons as `oop.py`. -/
def check_diags (g : Grid) (p : Player) : Bool :=
  let center_point : Int := (3 : Int).fdiv 2
  let corner : Int := 3 - 1
  if !(cellAt g center_point center_point == p) then false
  else if (cellAt g 0 0 == cellAt g corner corner && cellAt g corner corner == p) ||
          (cellAt g 0 corner == cellAt g corner 0 && cellAt g corner 0 == p) then true
  else false

def is_winner (g : Grid) (p : Player) : Bool :=
  check_rows g p || check_cols g p || check_diags g p

end Npc

namespace Functional

/-- `functional.py` stores `None` / `True` / `False` in each cell:
`None` is empty, `True` is player X, `False` is player O. -/
abbrev Cell := Option Bool

abbrev FGrid := List (List Cell)

def fcellAt (g : FGrid) (row col : Int) : Cell :=
  pyGetD (pyGetD g row []) col none

/-- `functional.py` `check_rows`: a cell matches iff `cell == player`
(`Optional[bool]` against `bool`, so an empty cell never matches). -/
def check_rows (g : FGrid) (player : Bool) : Bool :=
  g.any (fun row => row.all (fun cell => cell == some player))

def check_cols (g : FGrid) (player : Bool) : Bool :=
  (List.range 3).any (fun col =>
    (List.range 3).all (fun row => fcellAt g row col == some player))

def check_diags (g : FGrid) (player : Bool) : Bool :=
  if !(fcellAt g 1 1 == some player) then false
  else if (fcellAt g 0 0 == fcellAt g 2 2 && fcellAt g 2 2 == some player) ||
          (fcellAt g 0 2 == fcellAt g 2 0 && fcellAt g 2 0 == some player) then true
  else false

/-- `functional.py` `chicken_dinner`. -/
def chicken_dinner (g : FGrid) (player : Bool) : Bool :=
  check_rows g player || check_cols g player || check_diags g player

/-- Well-formedness of the functional variant's board. -/
def WFf (g : FGrid) : Bool :=
  g.length == 3 && g.all (fun row => row.length == 3)

end Functional

/-! ## Specification-side win predicates, following the spec's words:
a win is a full row of the player's mark, a full column, or either full
diagonal. -/

/-- Spec-side cell accessor at nonnegative coordinates. -/
def specCell (g : Grid) (i j : Nat) : Player :=
  (g.getD i []).getD j Player.EMPTY

/-- Some full row consists of the player's mark. -/
def spec_row_win (g : Grid) (p : Player) : Prop :=
  ∃ i : Fin 3, ∀ j : Fin 3, specCell g i j = p

/-- Some full column consists of the player's mark. -/
def spec_col_win (g : Grid) (p : Player) : Prop :=
  ∃ j : Fin 3, ∀ i : Fin 3, specCell g i j = p

/-- Either full diagonal consists of the player's mark. -/
def spec_diag_win (g : Grid) (p : Player) : Prop :=
  (∀ i : Fin 3, specCell g i i = p) ∨ (∀ i : Fin 3, specCell g i (2 - (i : Nat)) = p)

/-- A win as the spec states it. -/
def spec_win (g : Grid) (p : Player) : Prop :=
  spec_row_win g p ∨ spec_col_win g p ∨ spec_diag_win g p

namespace Functional

def fspecCell (g : FGrid) (i j : Nat) : Cell :=
  (g.getD i []).getD j none

/-- A win as the spec states it, for the functional variant: the player's
mark is the boolean `player` stored in the cell. -/
def spec_win (g : FGrid) (player : Bool) : Prop :=
  (∃ i : Fin 3, ∀ j : Fin 3, fspecCell g i j = some player) ∨
  (∃ j : Fin 3, ∀ i : Fin 3, fspecCell g i j = some player) ∨
  (∀ i : Fin 3, fspecCell g i i = some player) ∨
  (∀ i : Fin 3, fspecCell g i (2 - (i : Nat)) = some player)

/-- Either full diagonal consists of the player's mark (functional variant). -/
def spec_diag_win (g : FGrid) (player : Bool) : Prop :=
  (∀ i : Fin 3, fspecCell g i i = some player) ∨
  (∀ i : Fin 3, fspecCell g i (2 - (i : Nat)) = some player)

theorem wff_destruct (g : FGrid) (h : WFf g = true) :
    ∃ c00 c01 c02 c10 c11 c12 c20 c21 c22,
      g = [[c00, c01, c02], [c10, c11, c12], [c20, c21, c22]] := by
  simp only [WFf, Bool.and_eq_true, beq_iff_eq, List.all_eq_true] at h
  obtain ⟨hlen, hrows⟩ := h
  obtain ⟨r0, r1, r2, rfl⟩ := List.length_eq_three.mp hlen
  obtain ⟨a, b, c, rfl⟩ := List.length_eq_three.mp (hrows r0 (by simp))
  obtain ⟨d, e, f, rfl⟩ := List.length_eq_three.mp (hrows r1 (by simp))
  obtain ⟨x, y, z, rfl⟩ := List.length_eq_three.mp (hrows r2 (by simp))
  exact ⟨a, b, c, d, e, f, x, y, z, rfl⟩

end Functional

/-! ## Equivalence of the three scan functions with the spec predicates,
proved cell-by-cell on a destructured 3×3 grid. -/

theorem check_rows_iff (p a b c d e f x y z : Player) :
    check_rows [[a,b,c],[d,e,f],[x,y,z]] p = true ↔
    spec_row_win [[a,b,c],[d,e,f],[x,y,z]] p := by
  simp [check_rows, spec_row_win, specCell, Fin.exists_fin_succ, Fin.forall_fin_succ]

theorem check_cols_iff (p a b c d e f x y z : Player) :
    check_cols [[a,b,c],[d,e,f],[x,y,z]] p = true ↔
    spec_col_win [[a,b,c],[d,e,f],[x,y,z]] p := by
  simp [check_cols, spec_col_win, List.range_succ, cellAt, pyGetD, specCell,
    Fin.exists_fin_succ, Fin.forall_fin_succ]

theorem check_diags_iff (p a b c d e f x y z : Player) :
    check_diags [[a,b,c],[d,e,f],[x,y,z]] p = true ↔
    spec_diag_win [[a,b,c],[d,e,f],[x,y,z]] p := by
  simp only [check_diags, spec_diag_win, cellAt, pyGetD, specCell, Fin.forall_fin_succ]
  constructor
  · intro h
    simp at h
    obtain ⟨he, ⟨h1, h2⟩ | ⟨h1, h2⟩⟩ := h <;> subst h2 <;> simp_all
  · intro h
    simp
    simp at h
    rcases h with ⟨h1, h2, h3⟩ | ⟨h1, h2, h3⟩ <;> subst h1 <;> subst h3 <;> simp_all

theorem npc_check_rows_iff (p a b c d e f x y z : Player) :
    Npc.check_rows [[a,b,c],[d,e,f],[x,y,z]] p = true ↔
    spec_row_win [[a,b,c],[d,e,f],[x,y,z]] p := by
  simp [Npc.check_rows, spec_row_win, specCell, List.replicate_succ,
    Fin.exists_fin_succ, Fin.forall_fin_succ]
  tauto

theorem npc_check_diags_eq (p a b c d e f x y z : Player) :
    Npc.check_diags [[a,b,c],[d,e,f],[x,y,z]] p =
    check_diags [[a,b,c],[d,e,f],[x,y,z]] p := by
  simp only [Npc.check_diags, check_diags]
  norm_num [show (3 : Int).fdiv 2 = 1 from by decide]

theorem functional_check_rows_iff (player : Bool) (a b c d e f x y z : Functional.Cell) :
    Functional.check_rows [[a,b,c],[d,e,f],[x,y,z]] player = true ↔
    (∃ i : Fin 3, ∀ j : Fin 3,
      Functional.fspecCell [[a,b,c],[d,e,f],[x,y,z]] i j = some player) := by
  simp [Functional.check_rows, Functional.fspecCell,
    Fin.exists_fin_succ, Fin.forall_fin_succ]

theorem functional_check_cols_iff (player : Bool) (a b c d e f x y z : Functional.Cell) :
    Functional.check_cols [[a,b,c],[d,e,f],[x,y,z]] player = true ↔
    (∃ j : Fin 3, ∀ i : Fin 3,
      Functional.fspecCell [[a,b,c],[d,e,f],[x,y,z]] i j = some player) := by
  simp [Functional.check_cols, List.range_succ, Functional.fcellAt, pyGetD,
    Functional.fspecCell, Fin.exists_fin_succ, Fin.forall_fin_succ]

theorem functional_check_diags_iff (player : Bool) (a b c d e f x y z : Functional.Cell) :
    Functional.check_diags [[a,b,c],[d,e,f],[x,y,z]] player = true ↔
    Functional.spec_diag_win [[a,b,c],[d,e,f],[x,y,z]] player := by
  simp only [Functional.check_diags, Functional.spec_diag_win, Functional.fcellAt,
    pyGetD, Functional.fspecCell, Fin.forall_fin_succ]
  constructor
  · intro h
    simp at h
    obtain ⟨he, ⟨h1, h2⟩ | ⟨h1, h2⟩⟩ := h <;> subst h2 <;> simp_all
  · intro h
    simp
    simp at h
    rcases h with ⟨h1, h2, h3⟩ | ⟨h1, h2, h3⟩ <;> subst h1 <;> subst h3 <;> simp_all

theorem functional_chicken_dinner_iff (player : Bool) (a b c d e f x y z : Functional.Cell) :
    Functional.chicken_dinner [[a,b,c],[d,e,f],[x,y,z]] player = true ↔
    Functional.spec_win [[a,b,c],[d,e,f],[x,y,z]] player := by
  simp only [Functional.chicken_dinner, Functional.spec_win, Bool.or_eq_true]
  rw [functional_check_rows_iff, functional_check_cols_iff, functional_check_diags_iff]
  simp only [Functional.spec_diag_win]
  tauto

/-- C1: for every (well-formed) board grid and every player, the win check
(`chicken_dinner` in `functional.py`, `Board.is_winner` in `oop.py` and
`oop_npc.py`) reports a win if and only if some full row consists of that
player's mark, or some full column does, or either full diagonal does. -/
theorem win_check_spec :
    (∀ (g : Grid) (p : Player), WF g = true →
      ((is_winner g p = true ↔ spec_win g p) ∧
       (Npc.is_winner g p = true ↔ spec_win g p))) ∧
    (∀ (g : Functional.FGrid) (player : Bool), Functional.WFf g = true →
      (Functional.chicken_dinner g player = true ↔ Functional.spec_win g player)) := by
  refine ⟨fun g p hwf => ?_, fun g player hwf => ?_⟩
  · obtain ⟨a, b, c, d, e, f, x, y, z, rfl⟩ := wf_destruct g hwf
    constructor
    · simp only [is_winner, spec_win, Bool.or_eq_true]
      rw [check_rows_iff, check_cols_iff, check_diags_iff]
      tauto
    · simp only [Npc.is_winner, Npc.check_cols, spec_win, Bool.or_eq_true,
        npc_check_diags_eq]
      rw [npc_check_rows_iff, check_cols_iff, check_diags_iff]
      tauto
  · obtain ⟨a, b, c, d, e, f, x, y, z, rfl⟩ := Functional.wff_destruct g hwf
    exact functional_chicken_dinner_iff player a b c d e f x y z

/-- Witness for C1: on the concrete grid whose first row is all `PRIMARY`,
the `oop.py` win check reports a win. -/
theorem win_check_spec_witness :
    is_winner [[Player.PRIMARY, Player.PRIMARY, Player.PRIMARY],
               [Player.EMPTY, Player.EMPTY, Player.EMPTY],
               [Player.EMPTY, Player.EMPTY, Player.EMPTY]] Player.PRIMARY = true :=
  ((win_check_spec.1 _ Player.PRIMARY (by decide)).1).mpr (Or.inl ⟨0, by decide⟩)

/-- C7: for every (well-formed) board grid and every player, the diagonal
check with its center-cell pre-filter (`check_diags` in `functional.py`,
`Board._check_diags` in `oop_npc.py`, and likewise in `oop.py`) returns
exactly the result of the plain check that either full diagonal consists
of that player's mark: the center short-circuit has no behavioral effect. -/
theorem check_diags_prefilter_no_effect :
    (∀ (g : Grid) (p : Player), WF g = true →
      ((check_diags g p = true ↔ spec_diag_win g p) ∧
       Npc.check_diags g p = check_diags g p)) ∧
    (∀ (g : Functional.FGrid) (player : Bool), Functional.WFf g = true →
      (Functional.check_diags g player = true ↔
       Functional.spec_diag_win g player)) := by
  refine ⟨fun g p hwf => ?_, fun g player hwf => ?_⟩
  · obtain ⟨a, b, c, d, e, f, x, y, z, rfl⟩ := wf_destruct g hwf
    exact ⟨check_diags_iff p a b c d e f x y z, npc_check_diags_eq p a b c d e f x y z⟩
  · obtain ⟨a, b, c, d, e, f, x, y, z, rfl⟩ := Functional.wff_destruct g hwf
    exact functional_check_diags_iff player a b c d e f x y z

/-- Witness for C7: on the concrete grid with `SECONDARY` on the main
diagonal, the pre-filtered diagonal check agrees with the plain diagonal
condition. -/
theorem check_diags_prefilter_no_effect_witness :
    check_diags [[Player.SECONDARY, Player.EMPTY, Player.EMPTY],
                 [Player.EMPTY, Player.SECONDARY, Player.EMPTY],
                 [Player.EMPTY, Player.EMPTY, Player.SECONDARY]] Player.SECONDARY = true :=
  ((check_diags_prefilter_no_effect.1 _ Player.SECONDARY (by decide)).1).mpr
    (Or.inl (by decide))

/-- C2: for `p` in `[1,9]`, `linear_position_to_coords p` is exactly
`((p-1) div 3, (p-1) mod 3)` (floor division, as in Python), both
components lie in `[0,2]`, the map is injective on `[1,9]`, and every
coordinate pair in `[0,2] × [0,2]` is hit — i.e. it is a bijection from
the 9 valid positions onto the 9 grid coordinates. -/
theorem linear_position_to_coords_spec (p : Int) (h1 : 1 ≤ p) (h9 : p ≤ 9) :
    linear_position_to_coords p = ((p - 1).fdiv 3, (p - 1).fmod 3) ∧
    (0 ≤ (linear_position_to_coords p).1 ∧ (linear_position_to_coords p).1 ≤ 2 ∧
     0 ≤ (linear_position_to_coords p).2 ∧ (linear_position_to_coords p).2 ≤ 2) ∧
    (∀ q, 1 ≤ q → q ≤ 9 →
      linear_position_to_coords q = linear_position_to_coords p → q = p) ∧
    (∀ r c : Int, 0 ≤ r → r ≤ 2 → 0 ≤ c → c ≤ 2 →
      ∃ q, 1 ≤ q ∧ q ≤ 9 ∧ linear_position_to_coords q = (r, c)) := by
  refine ⟨?_, ?_, ?_, ?_⟩
  · interval_cases p <;> decide
  · interval_cases p <;> decide
  · intro q hq1 hq9 heq
    interval_cases p <;> interval_cases q <;> first | rfl | exact absurd heq (by decide)
  · intro r c hr0 hr2 hc0 hc2
    interval_cases r <;> interval_cases c <;>
      first
        | exact ⟨1, by decide, by decide, by decide⟩
        | exact ⟨2, by decide, by decide, by decide⟩
        | exact ⟨3, by decide, by decide, by decide⟩
        | exact ⟨4, by decide, by decide, by decide⟩
        | exact ⟨5, by decide, by decide, by decide⟩
        | exact ⟨6, by decide, by decide, by decide⟩
        | exact ⟨7, by decide, by decide, by decide⟩
        | exact ⟨8, by decide, by decide, by decide⟩
        | exact ⟨9, by decide, by decide, by decide⟩

/-- Witness for C2 at the concrete position 5. -/
theorem linear_position_to_coords_spec_witness :
    linear_position_to_coords 5 = ((5 - 1 : Int).fdiv 3, (5 - 1 : Int).fmod 3) :=
  (linear_position_to_coords_spec 5 (by decide) (by decide)).1

/-! ## Player rotation (`Players` in `oop.py` and `oop_npc.py`).
`_players` is the pair `(SECONDARY, PRIMARY)` indexed by the boolean flag
`_current` (Python indexes a tuple with a bool: `False` is 0, `True` is 1);
`switch` flips the flag and returns the new current player. -/

namespace Players

/-- `Players._players[b]`. -/
def players (b : Bool) : Player :=
  if b then Player.PRIMARY else Player.SECONDARY

/-- `Players.current`. -/
def current (b : Bool) : Player :=
  players b

/-- `Players.switch`: the new flag value together with the returned player. -/
def switch (b : Bool) : Bool × Player :=
  (!b, players (!b))

end Players

/-- C6: for every rotation state, `Players.switch` flips the current-player
flag, returns exactly the identity `current` would then return, and applying
it twice returns the rotation to its original `current` identity. -/
theorem players_switch_spec :
    ∀ b : Bool,
      (Players.switch b).1 = !b ∧
      (Players.switch b).2 = Players.current (Players.switch b).1 ∧
      Players.current (Players.switch (Players.switch b).1).1 = Players.current b := by
  decide

/-! ## User input (`get_user_input_as_int` in `functional.py`,
`get_user_input` in `oop.py` / `oop_npc.py`).  The embedding takes the
already-read line as its argument.  `casefold` is embedded for ASCII input
as a character-wise `Char.toLower`; `isnumeric` for ASCII input is
"non-empty and all characters are decimal digits" (Python additionally
accepts non-ASCII Unicode numerics, which no claim exercises); `int(s)` on
a digit string is the decimal value. -/

inductive InputResult where
  | userExit
  | invalidInput
  | outOfBounds
  | ok (n : Int)
deriving DecidableEq, Repr

/-- `input_string.casefold()`, for ASCII strings. -/
def casefold (s : String) : String :=
  ⟨s.data.map Char.toLower⟩

/-- `input_string.isnumeric()`, for ASCII strings. -/
def pyIsNumeric (s : String) : Bool :=
  !s.data.isEmpty && s.data.all Char.isDigit

/-- `int(input_string)` on a string of decimal digits. -/
def pyInt (s : String) : Int :=
  s.data.foldl (fun acc ch => acc * 10 + ((ch.toNat : Int) - 48)) 0

/-- `get_user_input_as_int` of `functional.py`: quit check, then numeric
check, then the bounds check `input_num < 1 or input_num > 9`
(`oop.py` / `oop_npc.py` write the bounds check as the equivalent
`not 1 <= input_num <= 9`). -/
def get_user_input (input_string : String) : InputResult :=
  if casefold input_string = "q" then .userExit
  else if !(pyIsNumeric input_string) then .invalidInput
  else
    let input_num := pyInt input_string
    if input_num < 1 ∨ input_num > 9 then .outOfBounds
    else .ok input_num

theorem toLower_of_isDigit {c : Char} (h : c.isDigit = true) : c.toLower = c := by
  simp only [Char.isDigit, Bool.and_eq_true, decide_eq_true_eq] at h
  obtain ⟨h1, h2⟩ := h
  unfold Char.toLower
  rw [if_neg]
  rintro ⟨h3, h4⟩
  have h1' : (48 : UInt32).toNat ≤ c.val.toNat := h1
  have h2' : c.val.toNat ≤ (57 : UInt32).toNat := h2
  have e48 : (48 : UInt32).toNat = 48 := rfl
  have e57 : (57 : UInt32).toNat = 57 := rfl
  have e1 : c.toNat = c.val.toNat := rfl
  rw [e1] at h3 h4
  omega

/-- A numeric string never casefolds to the quit sentinel. -/
theorem casefold_ne_q_of_numeric (s : String) (h : pyIsNumeric s = true) :
    casefold s ≠ "q" := by
  intro hq
  have hdata : s.data.map Char.toLower = ['q'] := congrArg String.data hq
  simp only [pyIsNumeric, Bool.and_eq_true, List.all_eq_true] at h
  obtain ⟨hne, hdig⟩ := h
  cases hs : s.data with
  | nil => rw [hs] at hdata; simp at hdata
  | cons c t =>
    rw [hs] at hdata
    simp only [List.map_cons, List.cons.injEq] at hdata
    obtain ⟨hc, ht⟩ := hdata
    have hcd : c.isDigit = true := hdig c (by rw [hs]; exact List.mem_cons_self c t)
    rw [toLower_of_isDigit hcd] at hc
    subst hc
    simp [Char.isDigit] at hcd

/-- C3 counterexample: the claim says `"-1"` raises the out-of-bounds
error, but `"-1".isnumeric()` is false in Python (the minus sign is not a
digit), so the routine classifies `"-1"` as invalid input instead. -/
theorem get_user_input_neg_one_counterexample :
    get_user_input "-1" = InputResult.invalidInput ∧
    get_user_input "-1" ≠ InputResult.outOfBounds := by
  decide

/-- C3 (amended): a case-insensitive `"q"` signals the user exit; a numeric
string whose integer value lies in `[1,9]` is returned as that integer;
`"0"` and `"10"` raise the out-of-bounds error; `"-1"`, `"abc"` and `""`
each raise the invalid-input error (`"-1"` is not numeric, so it fails the
numeric check before the bounds check is ever reached). -/
theorem get_user_input_spec :
    (∀ s : String, casefold s = "q" → get_user_input s = InputResult.userExit) ∧
    (get_user_input "q" = InputResult.userExit ∧
     get_user_input "Q" = InputResult.userExit) ∧
    (∀ s : String, pyIsNumeric s = true → 1 ≤ pyInt s → pyInt s ≤ 9 →
      get_user_input s = InputResult.ok (pyInt s)) ∧
    (get_user_input "0" = InputResult.outOfBounds ∧
     get_user_input "10" = InputResult.outOfBounds) ∧
    (get_user_input "-1" = InputResult.invalidInput ∧
     get_user_input "abc" = InputResult.invalidInput ∧
     get_user_input "" = InputResult.invalidInput) := by
  refine ⟨fun s hq => ?_, ⟨by decide, by decide⟩, fun s hnum h1 h9 => ?_,
    ⟨by decide, by decide⟩, by decide, by decide, by decide⟩
  · simp [get_user_input, hq]
  · rw [get_user_input, if_neg (casefold_ne_q_of_numeric s hnum)]
    simp [hnum]
    omega

/-- Witness for C3 (amended) at the concrete inputs `"5"` and `"Q"`. -/
theorem get_user_input_spec_witness :
    get_user_input "5" = InputResult.ok 5 ∧
    get_user_input "Q" = InputResult.userExit := by
  constructor
  · have h := get_user_input_spec.2.2.1 "5" (by decide) (by decide) (by decide)
    rw [h]
    decide
  · exact get_user_input_spec.1 "Q" (by decide)

/-! ## The Board structure of `oop.py` / `oop_npc.py`: the grid plus the
`turn` counter (`self.turn = 0` in `__init__`; only `is_tie` increments
it). -/

structure Board where
  grid : Grid
  turn : Nat
deriving DecidableEq, Repr

/-- `Board.__init__`. -/
def Board.init : Board :=
  { grid := fresh_grid, turn := 0 }

/-- `Board.add` as a method on the whole board state: it writes one grid
cell and touches nothing else (in particular not `turn`). -/
def Board.add (b : Board) (position : Int) (player : Player) : Board :=
  { b with grid := TicTacToe.add b.grid position player }

/-- C8: placing any non-empty player mark at any position in `[1,9]`
makes `is_taken` true at that position, and on a freshly constructed
board `is_taken` is false at every position in `[1,9]`. -/
theorem place_then_is_taken_spec :
    (∀ (g : Grid) (pos : Int) (p : Player), WF g = true →
      1 ≤ pos → pos ≤ 9 → p ≠ Player.EMPTY →
      is_taken (add g pos p) pos = true) ∧
    (∀ pos : Int, 1 ≤ pos → pos ≤ 9 → is_taken fresh_grid pos = false) := by
  constructor
  · intro g pos p hwf h1 h9 hp
    obtain ⟨a, b, c, d, e, f, x, y, z, rfl⟩ := wf_destruct g hwf
    interval_cases pos <;>
      · simp [is_taken, add, get_coords, linear_position_to_coords, cellAt,
          pyGetD, pySet]
        exact hp
  · intro pos h1 h9
    interval_cases pos <;> decide

/-- Witness for C8: placing `PRIMARY` at position 5 on the fresh board
makes position 5 taken; position 5 is free on the fresh board. -/
theorem place_then_is_taken_spec_witness :
    is_taken (add fresh_grid 5 Player.PRIMARY) 5 = true ∧
    is_taken fresh_grid 5 = false :=
  ⟨place_then_is_taken_spec.1 fresh_grid 5 Player.PRIMARY (by decide) (by decide)
      (by decide) (by decide),
   place_then_is_taken_spec.2 5 (by decide) (by decide)⟩

/-- C9: `Board.add` writes the player mark into exactly the cell that the
position maps to — with no requirement that the cell be empty, so an old
mark is silently overwritten — and leaves every other grid cell and the
`turn` counter unchanged. -/
theorem add_frame_spec :
    ∀ (b : Board) (pos : Int) (p : Player), WF b.grid = true →
      1 ≤ pos → pos ≤ 9 →
      (Board.add b pos p).turn = b.turn ∧
      cellAt (Board.add b pos p).grid (get_coords pos).1 (get_coords pos).2 = p ∧
      (∀ r c : Int, 0 ≤ r → r ≤ 2 → 0 ≤ c → c ≤ 2 → (r, c) ≠ get_coords pos →
        cellAt (Board.add b pos p).grid r c = cellAt b.grid r c) := by
  intro b pos p hwf h1 h9
  obtain ⟨g, t⟩ := b
  obtain ⟨a, b, c, d, e, f, x, y, z, rfl⟩ := wf_destruct g hwf
  refine ⟨rfl, ?_, ?_⟩
  · interval_cases pos <;> rfl
  · intro r c' hr0 hr2 hc0 hc2 hne
    interval_cases pos <;> interval_cases r <;> interval_cases c' <;>
      first
        | rfl
        | exact absurd rfl hne

/-- Witness for C9: placing `SECONDARY` at position 1 on a board whose
cell 1 already holds `PRIMARY` overwrites that cell and leaves the cell at
coordinates (0,1) and the turn counter unchanged. -/
theorem add_frame_spec_witness :
    (Board.add { grid := [[Player.PRIMARY, Player.PRIMARY, Player.EMPTY],
                          [Player.EMPTY, Player.EMPTY, Player.EMPTY],
                          [Player.EMPTY, Player.EMPTY, Player.EMPTY]], turn := 2 }
        1 Player.SECONDARY).turn = 2 ∧
    cellAt (Board.add { grid := [[Player.PRIMARY, Player.PRIMARY, Player.EMPTY],
                                 [Player.EMPTY, Player.EMPTY, Player.EMPTY],
                                 [Player.EMPTY, Player.EMPTY, Player.EMPTY]], turn := 2 }
        1 Player.SECONDARY).grid 0 0 = Player.SECONDARY ∧
    cellAt (Board.add { grid := [[Player.PRIMARY, Player.PRIMARY, Player.EMPTY],
                                 [Player.EMPTY, Player.EMPTY, Player.EMPTY],
                                 [Player.EMPTY, Player.EMPTY, Player.EMPTY]], turn := 2 }
        1 Player.SECONDARY).grid 0 1 = Player.PRIMARY := by
  have h := add_frame_spec
    { grid := [[Player.PRIMARY, Player.PRIMARY, Player.EMPTY],
               [Player.EMPTY, Player.EMPTY, Player.EMPTY],
               [Player.EMPTY, Player.EMPTY, Player.EMPTY]], turn := 2 }
    1 Player.SECONDARY (by decide) (by decide) (by decide)
  refine ⟨h.1, h.2.1, ?_⟩
  have h2 := h.2.2 0 1 (by decide) (by decide) (by decide) (by decide) (by decide)
  rw [h2]
  decide

/-- C10: the coordinate conversion is total on out-of-range positions
rather than failing: position 0 maps to `(-1, -1)`, and `is_taken 0` then
reads the bottom-right cell `grid[-1][-1]` by Python negative indexing
instead of raising — position 0 is rejected only by the input-validation
routine, which classifies `"0"` as out of bounds. -/
theorem position_zero_reads_bottom_right :
    linear_position_to_coords 0 = (-1, -1) ∧
    (∀ g : Grid, WF g = true →
      is_taken g 0 = (cellAt g 2 2 != Player.EMPTY)) ∧
    get_user_input "0" = InputResult.outOfBounds := by
  refine ⟨by decide, ?_, by decide⟩
  intro g hwf
  obtain ⟨a, b, c, d, e, f, x, y, z, rfl⟩ := wf_destruct g hwf
  rfl

/-- Witness for C10: on the board whose bottom-right cell holds `PRIMARY`,
`is_taken 0` is true. -/
theorem position_zero_reads_bottom_right_witness :
    is_taken [[Player.EMPTY, Player.EMPTY, Player.EMPTY],
              [Player.EMPTY, Player.EMPTY, Player.EMPTY],
              [Player.EMPTY, Player.EMPTY, Player.PRIMARY]] 0 = true := by
  have h := position_zero_reads_bottom_right.2.1
    [[Player.EMPTY, Player.EMPTY, Player.EMPTY],
     [Player.EMPTY, Player.EMPTY, Player.EMPTY],
     [Player.EMPTY, Player.EMPTY, Player.PRIMARY]] (by decide)
  rw [h]
  decide

/-- Number of non-`EMPTY` cells of a grid. -/
def count_marks (g : Grid) : Nat :=
  g.flatten.countP (fun cell => cell != Player.EMPTY)

namespace Npc

/-- `get_location` of `oop_npc.py` for `player is Player.COMPUTER`:
`location = random.randint(1, 9)`, then `while board.is_taken(location):`
draw again.  The embedding threads the stream of `random.randint(1, 9)`
samples explicitly and returns the first sample whose cell is free
(`none` when the finite sample list runs out before that happens). -/
def get_location (g : Grid) : List Int → Option Int
  | [] => none
  | sample :: rest =>
      if is_taken g sample then get_location g rest else some sample

end Npc

/-- C5: for every non-full board and every sample sequence that makes the
randomized move source return, the returned position is in `[1,9]` (every
`random.randint(1, 9)` sample is) and its cell is not taken. -/
theorem get_location_spec :
    ∀ (g : Grid) (samples : List Int) (loc : Int),
      count_marks g < 9 →
      (∀ s ∈ samples, 1 ≤ s ∧ s ≤ 9) →
      Npc.get_location g samples = some loc →
      (1 ≤ loc ∧ loc ≤ 9) ∧ is_taken g loc = false := by
  intro g samples
  induction samples with
  | nil =>
    intro loc hfull hall h
    simp [Npc.get_location] at h
  | cons sample rest ih =>
    intro loc hfull hall h
    rw [Npc.get_location] at h
    by_cases ht : is_taken g sample
    · rw [if_pos ht] at h
      exact ih loc hfull (fun s hs => hall s (List.mem_cons_of_mem sample hs)) h
    · rw [if_neg ht] at h
      obtain rfl : sample = loc := by simpa using h
      exact ⟨hall sample (List.mem_cons_self sample rest), by simpa using ht⟩

/-- Witness for C5: on the fresh board with sample stream `[5]`, the move
source returns 5, which is in range and free. -/
theorem get_location_spec_witness :
    ((1 : Int) ≤ 5 ∧ (5 : Int) ≤ 9) ∧ is_taken fresh_grid 5 = false :=
  get_location_spec fresh_grid [5] 5 (by decide) (by decide) (by decide)

/-! ## The game loop of `oop.py` (`main`).  One loop iteration on an
accepted input line: if the location is taken nothing changes (the loop
re-prompts); otherwise the current player is placed, then `is_winner` may
end the game (the `WinnerWinnerChickenDinner` exception breaks the loop
before `is_tie` ever increments `turn`), then `is_tie` increments `turn`
and may end the game, and only then do the players switch.
(`functional.py`'s `main` has exactly the same structure with
`check_tie` playing the role of `is_tie`.) -/

inductive Status where
  | running
  | won (p : Player)
  | tie
deriving DecidableEq, Repr

structure GameState where
  board : Board
  current : Bool
  status : Status
deriving DecidableEq, Repr

/-- The state at the top of the first loop iteration. -/
def initState : GameState :=
  { board := Board.init, current := true, status := Status.running }

/-- One loop iteration of `main` on a validated location in `[1,9]`. -/
def stepMove (s : GameState) (location : Int) : GameState :=
  if is_taken s.board.grid location then s
  else if is_winner (add s.board.grid location (Players.current s.current))
          (Players.current s.current) then
    { board := { grid := add s.board.grid location (Players.current s.current),
                 turn := s.board.turn },
      current := s.current,
      status := Status.won (Players.current s.current) }
  else if s.board.turn + 1 = 9 then
    { board := { grid := add s.board.grid location (Players.current s.current),
                 turn := s.board.turn + 1 },
      current := s.current,
      status := Status.tie }
  else
    { board := { grid := add s.board.grid location (Players.current s.current),
                 turn := s.board.turn + 1 },
      current := !s.current,
      status := Status.running }

/-- States the game loop can reach from a fresh board: the loop body only
runs on positions the input validation accepted, i.e. in `[1,9]`, and only
while the game is still running. -/
inductive Reachable : GameState → Prop where
  | init : Reachable initState
  | step (s : GameState) (location : Int) :
      Reachable s → s.status = Status.running →
      1 ≤ location → location ≤ 9 →
      Reachable (stepMove s location)

theorem players_current_ne_empty (b : Bool) :
    Players.current b ≠ Player.EMPTY := by
  cases b <;> decide

theorem wf_add (g : Grid) (hwf : WF g = true) (pos : Int)
    (h1 : 1 ≤ pos) (h9 : pos ≤ 9) (p : Player) :
    WF (add g pos p) = true := by
  obtain ⟨a, b, c, d, e, f, x, y, z, rfl⟩ := wf_destruct g hwf
  interval_cases pos <;> rfl

theorem count_add (g : Grid) (hwf : WF g = true) (pos : Int)
    (h1 : 1 ≤ pos) (h9 : pos ≤ 9) (p : Player) (hp : p ≠ Player.EMPTY)
    (ht : is_taken g pos = false) :
    count_marks (add g pos p) = count_marks g + 1 := by
  obtain ⟨a, b, c, d, e, f, x, y, z, rfl⟩ := wf_destruct g hwf
  have hpb : (p != Player.EMPTY) = true := by simpa using hp
  interval_cases pos <;>
    · simp [is_taken, get_coords, linear_position_to_coords, cellAt, pyGetD] at ht
      subst ht
      simp [count_marks, add, get_coords, linear_position_to_coords, pySet,
        pyGetD, List.countP_cons, hpb]
      try ring

/-- The inductive invariant of the loop: the grid stays 3×3; while the
game is running (and when it ends in a tie) `turn` counts the non-empty
cells; when it ends in a win the final `is_tie` increment never happened,
so `turn` is one less than the number of non-empty cells. -/
theorem reachable_invariant (s : GameState) (h : Reachable s) :
    WF s.board.grid = true ∧
    ((s.status = Status.running ∨ s.status = Status.tie) →
      s.board.turn = count_marks s.board.grid) ∧
    (∀ p, s.status = Status.won p →
      s.board.turn + 1 = count_marks s.board.grid) := by
  induction h with
  | init =>
    exact ⟨by decide, fun _ => by decide, fun p hp => by simp [initState] at hp⟩
  | step s loc hr hrun h1 h9 ih =>
    obtain ⟨ihwf, ihrt, ihw⟩ := ih
    have hturn : s.board.turn = count_marks s.board.grid := ihrt (Or.inl hrun)
    by_cases ht : is_taken s.board.grid loc = true
    · simp only [stepMove, ht, if_true]
      exact ⟨ihwf, ihrt, ihw⟩
    · rw [Bool.not_eq_true] at ht
      have hcnt := count_add s.board.grid ihwf loc h1 h9
        (Players.current s.current) (players_current_ne_empty s.current) ht
      have hwf' := wf_add s.board.grid ihwf loc h1 h9 (Players.current s.current)
      by_cases hw : is_winner (add s.board.grid loc (Players.current s.current))
          (Players.current s.current) = true
      · simp only [stepMove, ht, Bool.false_eq_true, if_false, hw, if_true]
        refine ⟨hwf', fun hc => ?_, fun p hp => ?_⟩
        · rcases hc with hc | hc <;> simp at hc
        · rw [hcnt, ← hturn]
      · by_cases htie : s.board.turn + 1 = 9
        · simp only [stepMove, ht, Bool.false_eq_true, if_false, hw, htie, if_true]
          refine ⟨hwf', fun _ => ?_, fun p hp => ?_⟩
          · rw [hcnt, ← hturn]
            exact htie.symm
          · simp at hp
        · simp only [stepMove, ht, Bool.false_eq_true, if_false, hw, htie]
          refine ⟨hwf', fun _ => ?_, fun p hp => ?_⟩
          · rw [hcnt, ← hturn]
          · simp at hp

/-- The terminal state of the concrete game X at 1, O at 4, X at 2,
O at 5, X at 3: X completes the top row on the fifth move. -/
def winning_trace_state : GameState :=
  stepMove (stepMove (stepMove (stepMove (stepMove initState 1) 4) 2) 5) 3

/-- C4 counterexample: the win-terminal state of the concrete game above
is reachable by the game loop, holds 5 non-empty cells, but its move
counter is 4 — the counter is only incremented inside the tie check,
which a winning move never reaches.  So the claim "turn equals the number
of non-Empty cells in every reachable state" is false. -/
theorem game_loop_turn_counterexample :
    Reachable winning_trace_state ∧
    winning_trace_state.board.turn = 4 ∧
    count_marks winning_trace_state.board.grid = 5 ∧
    winning_trace_state.board.turn ≠ count_marks winning_trace_state.board.grid := by
  refine ⟨?_, by decide, by decide, by decide⟩
  exact Reachable.step _ 3
    (Reachable.step _ 5
      (Reachable.step _ 2
        (Reachable.step _ 4
          (Reachable.step _ 1 Reachable.init rfl (by decide) (by decide))
          (by decide) (by decide) (by decide))
        (by decide) (by decide) (by decide))
      (by decide) (by decide) (by decide))
    (by decide) (by decide) (by decide)

/-- C4 (amended): in every state the game loop reaches in which no player
has won — every state at the top of the loop and every tie-terminal
state — the move counter equals the number of non-`EMPTY` cells; in a
win-terminal state the counter equals that number minus one, because the
counter is incremented by the tie check, which runs only when the move
did not win. -/
theorem game_loop_turn_spec :
    ∀ s : GameState, Reachable s →
      ((∀ p, s.status ≠ Status.won p) →
        s.board.turn = count_marks s.board.grid) ∧
      (∀ p, s.status = Status.won p →
        s.board.turn + 1 = count_marks s.board.grid) := by
  intro s h
  obtain ⟨hwf, hrt, hw⟩ := reachable_invariant s h
  refine ⟨fun hnw => ?_, hw⟩
  cases hs : s.status with
  | running => exact hrt (Or.inl hs)
  | won p => exact absurd hs (hnw p)
  | tie => exact hrt (Or.inr hs)

/-- Witness for C4 (amended): at the initial state the counter (0) equals
the number of non-empty cells (0). -/
theorem game_loop_turn_spec_witness :
    initState.board.turn = count_marks initState.board.grid :=
  (game_loop_turn_spec initState Reachable.init).1
    (fun p => by cases p <;> decide)

end TicTacToe
